import Mathlib

/-!
Verification development for the shazuno song-discovery pipeline:
a shallow embedding of the similarity scorer (`utils/similarity.ts`),
the paginated collector (`lib/suno.ts`), the caching service
(`services/sunoService.ts`) and the ranking service
(`services/searchService.ts`), together with theorems settling the
specification's testable properties.
-/

namespace Shazuno

/-! ## String normalization (utils/similarity.ts, `normalize`) -/

/-- JS whitespace class (the characters matched by the regex class backslash-s
that actually occur in this pipeline). -/
def jsSpaceB (c : Char) : Bool :=
  c = ' ' || c = '\t' || c = '\n' || c = '\r' || c = '\x0b' || c = '\x0c'

/-- JS word-character class: letters, digits and underscore. -/
def wordCharB (c : Char) : Bool :=
  ('a' ≤ c && c ≤ 'z') || ('A' ≤ c && c ≤ 'Z') || ('0' ≤ c && c ≤ '9') || c = '_'

/-- `String.prototype.trim`: drop leading and trailing whitespace. -/
def jsTrim (s : String) : String :=
  ⟨((s.data.dropWhile jsSpaceB).reverse.dropWhile jsSpaceB).reverse⟩

/-- Helper for collapsing whitespace runs: the Bool tracks whether the
previous character was whitespace (already emitted as a single space). -/
def collapseGo : Bool → List Char → List Char
  | _, [] => []
  | last, c :: cs =>
    if jsSpaceB c then
      if last then collapseGo true cs else ' ' :: collapseGo true cs
    else c :: collapseGo false cs

/-- `replace(/\s+/g, ' ')`: collapse each whitespace run to a single space. -/
def collapseWs (l : List Char) : List Char := collapseGo false l

/-- `toLowerCase` on a string. -/
def lowerStr (s : String) : String := ⟨s.data.map Char.toLower⟩

/-- `normalize` from utils/similarity.ts: lowercase, trim, collapse whitespace
runs to single spaces, then remove every character that is neither a word
character nor whitespace.  Note the source trims BEFORE stripping, so a
normalized string may retain an inner space next to a stripped symbol. -/
def normalize (str : String) : String :=
  ⟨(collapseWs (jsTrim (lowerStr str)).data).filter (fun c => wordCharB c || jsSpaceB c)⟩

/-- Splitting helper: `acc` holds the (reversed) characters of the word being
read; empty fragments are dropped, mirroring `.filter(Boolean)`. -/
def wordsGo : List Char → List Char → List String
  | acc, [] => if acc.isEmpty then [] else [⟨acc.reverse⟩]
  | acc, c :: cs =>
    if jsSpaceB c then
      if acc.isEmpty then wordsGo [] cs else (⟨acc.reverse⟩ : String) :: wordsGo [] cs
    else wordsGo (c :: acc) cs

/-- `s.split(/\s+/).filter(Boolean)` on an already-normalized string
(whose only whitespace is single spaces). -/
def wordsOf (s : String) : List String := wordsGo [] s.data

/-- Contiguous-substring test on character lists (`String.prototype.includes`). -/
def containsSeq (needle : List Char) : List Char → Bool
  | [] => needle.isEmpty
  | c :: cs => needle.isPrefixOf (c :: cs) || containsSeq needle cs

/-- `hay.includes(needle)` for strings. -/
def includesStr (hay needle : String) : Bool := containsSeq needle.data hay.data

/-! ## The similarity scorer (utils/similarity.ts, `calculateSimilarity`).
Scores are modeled as rationals; every score produced is of the form
`m / t` with `0 ≤ m ≤ t ≤` the query word count, or the constants
`1`, `9/10`, `0`, so equality and order agree with the JS doubles. -/

/-- `calculateSimilarity(str1, str2)`: word-overlap score of query `str2`
against lyrics `str1`. -/
def calculateSimilarity (str1 str2 : String) : ℚ :=
  let s1 := normalize str1
  let s2 := normalize str2
  if s1 = "" ∨ s2 = "" then 0
  else
    let lyricsWords := wordsOf s1
    let queryWords := wordsOf s2
    if queryWords = [] then 0
    else if includesStr s1 s2 then 1
    else
      let matchingWords := (queryWords.filter (fun w => lyricsWords.contains w)).length
      let ratio : ℚ := mkRat matchingWords queryWords.length
      if ratio = 1 then mkRat 9 10 else ratio

/-- The normalized word list of the query side of a comparison. -/
def qWords (s : String) : List String := wordsOf (normalize s)

/-- The number of query tokens (counted with multiplicity) that occur in the
lyrics word set — the loop counter `matchingWords` of the source. -/
def matchCount (str1 str2 : String) : Nat :=
  ((qWords str2).filter (fun w => (qWords str1).contains w)).length

example : calculateSimilarity "walking down the beach at sunset" "beach at sunset" = 1 := by
  decide

example : calculateSimilarity "hello beautiful world" "world hello" = mkRat 9 10 := by decide

example : calculateSimilarity "hello world" "hello today" = mkRat 1 2 := by decide

/-! ## Data model (types/speech.d.ts boundary, lib/suno.ts `mapClipToSong`) -/

/-- A song entry as produced by `mapClipToSong`.  `matchScore` is the score
slot filled in by the search services (0 on creation). -/
structure Song where
  id : String
  title : String
  lyrics : String
  audioUrl : Option String
  imageUrl : Option String
  tags : String
  matchScore : ℚ
deriving DecidableEq

/-- A raw remote clip record; optional fields model both `undefined` and
present-but-empty data (`metadata` being absent makes all three metadata
fields absent). -/
structure SunoClip where
  id : String
  title : Option String
  prompt : Option String
  gptDescriptionPrompt : Option String
  audioUrl : Option String
  imageLargeUrl : Option String
  imageUrl : Option String
  tags : Option String
deriving DecidableEq

/-- JS `a || b` for an optional string against a string default
(`undefined` and `""` are both falsy). -/
def jsOrStr (o : Option String) (d : String) : String :=
  match o with
  | some s => if s = "" then d else s
  | none => d

/-- JS `a || b` where both sides are optional strings. -/
def jsOrOpt (a b : Option String) : Option String :=
  match a with
  | some s => if s = "" then b else some s
  | none => b

/-- `mapClipToSong` from lib/suno.ts. -/
def mapClipToSong (clip : SunoClip) : Song :=
  { id := clip.id
    title := jsOrStr clip.title "Untitled"
    lyrics := jsOrStr clip.prompt (jsOrStr clip.gptDescriptionPrompt "")
    audioUrl := clip.audioUrl
    imageUrl := jsOrOpt clip.imageLargeUrl clip.imageUrl
    tags := jsOrStr clip.tags ""
    matchScore := 0 }

/-! ## The dedup map (`new Map<string, Song>()` keyed by clip id).
A JS `Map` preserves insertion order, and `set` on an existing key updates
the stored value in place without moving the entry; the key of every stored
entry is the entry's own `id`. -/

/-- `songsMap.set(v.id, v)`: replace in place if the key exists, else append. -/
def mapSet (m : List Song) (v : Song) : List Song :=
  if m.any (fun s => s.id = v.id) then
    m.map (fun s => if s.id = v.id then v else s)
  else m ++ [v]

/-- Merge a page's candidate clips (already filtered to those with a truthy
id) into the map, in order. -/
def foldClips (m : List Song) (clips : List SunoClip) : List Song :=
  clips.foldl (fun acc c => mapSet acc (mapClipToSong c)) m

/-- One key arriving at a seen-key accumulator: appended if new, ignored if
already present — exactly the key behavior of `Map.set`. -/
def seenIns (acc : List String) (k : String) : List String :=
  if k ∈ acc then acc else acc ++ [k]

/-- First-seen deduplication of a key stream: the key order a JS `Map`
ends up with after inserting the stream left to right. -/
def dedupFirst (ks : List String) : List String := ks.foldl seenIns []

/-! ## The collector (lib/suno.ts `fetchAllSunoSongs`) -/

/-- The outcome of one `fetchSunoPage` call: `fail` models the fetch promise
rejecting (an exception escaping the per-page guard); `resp none` models a
null response or a response without a usable `clips` array; `resp (some l)`
models a response whose `clips` array is `l`. -/
inductive PageOutcome where
  | fail : PageOutcome
  | resp : Option (List SunoClip) → PageOutcome
deriving DecidableEq

/-- MAX_CONSECUTIVE_EMPTY_PAGES from constants. -/
def MAX_CONSECUTIVE_EMPTY_PAGES : Nat := 10

/-- The observable outcome of a completed collection run.  `events` is the
per-page trace: each fetched page's (normalized) clip list paired with the
snapshot passed to `onProgress` for that page, if any; `processed` is the
stream of id-bearing candidates merged into the map, in merge order;
`pagesFetched` counts `fetchSunoPage` calls. -/
structure RunResult where
  corpus : List Song
  snaps : List (List Song)
  events : List (List SunoClip × Option (List Song))
  processed : List SunoClip
  pagesFetched : Nat
deriving DecidableEq

/-- A run that ends by rejection reports the snapshots already delivered and
the number of pages requested. -/
abbrev CollectOut := Except (List (List Song) × Nat) RunResult

instance {ε α : Type} [DecidableEq ε] [DecidableEq α] : DecidableEq (Except ε α) := by
  intro x y
  cases x with
  | ok a =>
    cases y with
    | ok b =>
      exact if h : a = b then isTrue (by rw [h]) else isFalse (by intro he; cases he; exact h rfl)
    | error b => exact isFalse (by intro he; cases he)
  | error a =>
    cases y with
    | ok b => exact isFalse (by intro he; cases he)
    | error b =>
      exact if h : a = b then isTrue (by rw [h]) else isFalse (by intro he; cases he; exact h rfl)

/-- The collector loop of `fetchAllSunoSongs`, driven by an explicit fuel
(the source loop has no intrinsic bound; all theorems quantify over runs
that complete, i.e. return `some`). -/
def collectLoop (feed : Nat → PageOutcome) :
    Nat → Nat → Nat → List Song → List (List Song) →
    List (List SunoClip × Option (List Song)) → List SunoClip → Nat →
    Option CollectOut
  | 0, _, _, _, _, _, _, _ => none
  | fuel+1, page, emptyPages, m, snaps, ev, procd, pf =>
    if MAX_CONSECUTIVE_EMPTY_PAGES ≤ emptyPages then
      some (.ok ⟨m, snaps, ev, procd, pf⟩)
    else
      match feed page with
      | .fail => some (.error (snaps, pf + 1))
      | .resp none =>
        collectLoop feed fuel (page+1) (emptyPages+1) m snaps (ev ++ [([], none)]) procd (pf+1)
      | .resp (some clips) =>
        if clips = [] then
          collectLoop feed fuel (page+1) (emptyPages+1) m snaps (ev ++ [([], none)]) procd (pf+1)
        else
          let fc := clips.filter (fun c => c.id ≠ "")
          let m' := foldClips m fc
          collectLoop feed fuel (page+1) 0 m' (snaps ++ [m'])
            (ev ++ [(clips, some m')]) (procd ++ fc) (pf+1)

/-- `fetchAllSunoSongs` run against a page feed. -/
def fetchAllSunoSongs (feed : Nat → PageOutcome) (fuel : Nat) : Option CollectOut :=
  collectLoop feed fuel 0 0 [] [] [] [] 0

/-- Final corpus of a successfully completed run, if any. -/
def corpusOf : Option CollectOut → Option (List Song)
  | some (.ok r) => some r.corpus
  | _ => none

/-- Snapshot trace of a successfully completed run, if any. -/
def snapsOf : Option CollectOut → Option (List (List Song))
  | some (.ok r) => some r.snaps
  | _ => none

/-! Concrete sample data for scenarios and counterexamples. -/

/-- Candidate with id "a" as first delivered. -/
def clipA1 : SunoClip :=
  ⟨"a", some "first", some "lyrics one", none, none, none, none, none⟩

/-- A re-delivery of id "a" carrying different data. -/
def clipA2 : SunoClip :=
  ⟨"a", some "second", some "lyrics two", none, none, none, none, none⟩

/-- Candidate with id "b". -/
def clipB : SunoClip :=
  ⟨"b", some "bee", some "lyrics b", none, none, none, none, none⟩

/-- Feed for the spec's resumption scenario: page 0 delivers a and b,
pages 1–9 are empty, page 10 re-delivers a, everything after is empty. -/
def feedC3 : Nat → PageOutcome := fun p =>
  if p = 0 then .resp (some [clipA1, clipB])
  else if p = 10 then .resp (some [clipA1])
  else .resp none

example :
    corpusOf (fetchAllSunoSongs feedC3 30) = some [mapClipToSong clipA1, mapClipToSong clipB] := by
  decide

/-- Feed where a later page re-delivers id "a" with different data. -/
def feedC1 : Nat → PageOutcome := fun p =>
  if p = 0 then .resp (some [clipA1])
  else if p = 1 then .resp (some [clipA2])
  else .resp none

example : corpusOf (fetchAllSunoSongs feedC1 20) = some [mapClipToSong clipA2] := by decide

/-- Feed whose second page consists only of an already-seen id. -/
def feedC7 : Nat → PageOutcome := fun p =>
  if p = 0 then .resp (some [clipA1])
  else if p = 1 then .resp (some [clipA1])
  else .resp none

example :
    snapsOf (fetchAllSunoSongs feedC7 20) =
      some [[mapClipToSong clipA1], [mapClipToSong clipA1]] := by decide

/-! ## The ranking service (services/searchService.ts `searchSongs`).
`Array.prototype.sort` with comparator `(a, b) => b.matchScore - a.matchScore`
is a stable descending sort by score; stable sorting by a total preorder has
a unique result, modeled here by insertion sort that places each element
before the first strictly-smaller-scored element of the sorted rest. -/

/-- MAX_SEARCH_RESULTS from constants. -/
def MAX_SEARCH_RESULTS : Nat := 10

/-- Stable descending insertion: `x` goes in front of the first element whose
score is not greater than `x`'s, so earlier input elements precede
equal-scored later ones. -/
def insertDesc (x : Song) : List Song → List Song
  | [] => [x]
  | y :: ys => if y.matchScore ≤ x.matchScore then x :: y :: ys else y :: insertDesc x ys

/-- Stable sort, descending by `matchScore`. -/
def sortDesc : List Song → List Song
  | [] => []
  | x :: xs => insertDesc x (sortDesc xs)

/-- Attach a fresh similarity score to a song (`{ ...song, matchScore }`). -/
def scoreWith (query : String) (song : Song) : Song :=
  { song with matchScore := calculateSimilarity song.lyrics query }

/-- `searchSongs` from services/searchService.ts: score, drop zero scores,
stable-sort descending, cap at MAX_SEARCH_RESULTS. -/
def searchSongs (query : String) (songs : List Song) : List Song :=
  if jsTrim query = "" ∨ songs = [] then []
  else
    let scoredSongs := songs.map (scoreWith query)
    (sortDesc (scoredSongs.filter (fun s => 0 < s.matchScore))).take MAX_SEARCH_RESULTS

/-! ## The caching service (services/sunoService.ts `fetchUserSongs`) -/

/-- One cache record: the corpus stored for a key and its creation time
(milliseconds). -/
structure CacheVal where
  songs : List Song
  timestamp : Int
deriving DecidableEq

/-- The service's in-memory cache, insertion ordered like a JS `Map`. -/
abbrev Cache := List (String × CacheVal)

/-- `cache.get(k)`. -/
def cacheGet (c : Cache) (k : String) : Option CacheVal :=
  (c.find? (fun p => p.1 = k)).map (fun p => p.2)

/-- `cache.set(k, v)`: replace in place or append. -/
def cacheSet (c : Cache) (k : String) (v : CacheVal) : Cache :=
  if c.any (fun p => p.1 = k) then c.map (fun p => if p.1 = k then (k, v) else p)
  else c ++ [(k, v)]

/-- `cacheTimeout`: five minutes in milliseconds. -/
def cacheTimeout : Int := 5 * 60 * 1000

/-- Result of a `fetchUserSongs` call. -/
inductive FetchRes where
  | ok : List Song → FetchRes
  | err : String → FetchRes
deriving DecidableEq

/-- Everything observable about one `fetchUserSongs` call: its result, the
cache state afterwards, the number of page requests issued, and the
snapshots handed to `onProgress`. -/
structure FetchOutcome where
  result : FetchRes
  cache : Cache
  pages : Nat
  progress : List (List Song)
deriving DecidableEq

/-- The cache-miss path of `fetchUserSongs`: run the collector; on success
store a record under `k` with the call's completion time; on rejection leave
the cache alone and surface the user-facing error message. -/
def fetchFresh (k : String) (now : Int) (cache : Cache) (feed : Nat → PageOutcome)
    (fuel : Nat) : Option FetchOutcome :=
  match fetchAllSunoSongs feed fuel with
  | none => none
  | some (.ok r) => some ⟨.ok r.corpus, cacheSet cache k ⟨r.corpus, now⟩, r.pagesFetched, r.snaps⟩
  | some (.error (snaps, pf)) =>
    some ⟨.err "Failed to load songs. Please try again.", cache, pf, snaps⟩

/-- `fetchUserSongs` from services/sunoService.ts.  `now` models `Date.now()`
for this call; the feed and fuel model the network environment the collector
would run against. -/
def fetchUserSongs (username : String) (now : Int) (cache : Cache)
    (feed : Nat → PageOutcome) (fuel : Nat) : Option FetchOutcome :=
  let normalizedUsername := lowerStr (jsTrim username)
  if normalizedUsername = "" then some ⟨.ok [], cache, 0, []⟩
  else
    match cacheGet cache normalizedUsername with
    | some cached =>
      if now - cached.timestamp < cacheTimeout then some ⟨.ok cached.songs, cache, 0, []⟩
      else fetchFresh normalizedUsername now cache feed fuel
    | none => fetchFresh normalizedUsername now cache feed fuel

/-- No record for `k` is fresh at time `t` (either no record, or stale). -/
def noFresh (cache : Cache) (k : String) (t : Int) : Prop :=
  ∀ cv, cacheGet cache k = some cv → ¬(t - cv.timestamp < cacheTimeout)

example :
    fetchUserSongs "   " 0 [] (fun _ => .fail) 0 = some ⟨.ok [], [], 0, []⟩ := by decide

/-! ## Cache lemmas -/

lemma find?_map_replace (k : String) (v : CacheVal) :
    ∀ c : Cache, c.any (fun p => p.1 = k) = true →
      (c.map (fun p => if p.1 = k then (k, v) else p)).find? (fun p => decide (p.1 = k)) =
        some (k, v) := by
  intro c
  induction c with
  | nil => intro h; simp at h
  | cons p c ih =>
    intro h
    by_cases hp : p.1 = k
    · simp [List.find?, hp]
    · have h' : c.any (fun p => p.1 = k) = true := by
        simp only [List.any_cons] at h
        simpa [hp] using h
      simp [List.find?, hp, ih h']

lemma find?_none_of_any_false (k : String) :
    ∀ c : Cache, c.any (fun p => p.1 = k) = false →
      c.find? (fun p => decide (p.1 = k)) = none := by
  intro c
  induction c with
  | nil => intro _; rfl
  | cons p c ih =>
    intro h
    simp only [List.any_cons, Bool.or_eq_false_iff] at h
    have hp : ¬ p.1 = k := by simpa using h.1
    simp [List.find?, hp, ih h.2]

lemma find?_append_of_none {α : Type} {p : α → Bool} :
    ∀ l₁ l₂ : List α, l₁.find? p = none → (l₁ ++ l₂).find? p = l₂.find? p := by
  intro l₁ l₂
  induction l₁ with
  | nil => intro _; rfl
  | cons a l ih =>
    intro h
    simp only [List.find?] at h ⊢
    cases hp : p a
    · rw [hp] at h
      simp only [List.cons_append, List.find?, hp]
      exact ih h
    · rw [hp] at h; simp at h

lemma cacheGet_cacheSet_self (c : Cache) (k : String) (v : CacheVal) :
    cacheGet (cacheSet c k v) k = some v := by
  unfold cacheGet cacheSet
  by_cases h : c.any (fun p => p.1 = k) = true
  · rw [if_pos h, find?_map_replace k v c h]
    rfl
  · rw [if_neg h]
    have hc : c.any (fun p => p.1 = k) = false := by
      cases hb : c.any (fun p => p.1 = k)
      · rfl
      · exact absurd hb h
    rw [find?_append_of_none c [(k, v)] (find?_none_of_any_false k c hc)]
    simp [List.find?]

/-- Staleness is monotone in time. -/
lemma noFresh_mono {c : Cache} {k : String} {t t2 : Int}
    (h : noFresh c k t) (hle : t ≤ t2) : noFresh c k t2 := by
  intro cv hcv
  have := h cv hcv
  omega

/-! ## Collector page-count lemmas -/

lemma collectLoop_pages_le (feed : Nat → PageOutcome) :
    ∀ fuel page ep m snaps ev procd pf r,
      collectLoop feed fuel page ep m snaps ev procd pf = some (.ok r) →
      pf ≤ r.pagesFetched := by
  intro fuel
  induction fuel with
  | zero => intro page ep m snaps ev procd pf r h; exact absurd h (by simp [collectLoop])
  | succ fuel ih =>
    intro page ep m snaps ev procd pf r h
    simp only [collectLoop] at h
    split at h
    · have : RunResult.mk m snaps ev procd pf = r := by simpa using h
      exact Nat.le_of_eq (by rw [← this])
    · split at h
      · simp at h
      · exact Nat.le_of_succ_le (ih _ _ _ _ _ _ _ _ h)
      · split at h
        · exact Nat.le_of_succ_le (ih _ _ _ _ _ _ _ _ h)
        · exact Nat.le_of_succ_le (ih _ _ _ _ _ _ _ _ h)

/-- A run that starts below the empty-page threshold performs at least one
page request. -/
lemma collectLoop_pages_pos (feed : Nat → PageOutcome) (fuel page ep : Nat)
    (m : List Song) (snaps : List (List Song))
    (ev : List (List SunoClip × Option (List Song))) (procd : List SunoClip)
    (pf : Nat) (r : RunResult) (hep : ep < MAX_CONSECUTIVE_EMPTY_PAGES)
    (h : collectLoop feed fuel page ep m snaps ev procd pf = some (.ok r)) :
    pf + 1 ≤ r.pagesFetched := by
  cases fuel with
  | zero => exact absurd h (by simp [collectLoop])
  | succ fuel =>
    simp only [collectLoop] at h
    rw [if_neg (Nat.not_le.mpr hep)] at h
    split at h
    · simp at h
    · exact collectLoop_pages_le feed _ _ _ _ _ _ _ _ _ h
    · split at h
      · exact collectLoop_pages_le feed _ _ _ _ _ _ _ _ _ h
      · exact collectLoop_pages_le feed _ _ _ _ _ _ _ _ _ h

/-- When the key is non-empty and no fresh record exists, `fetchUserSongs`
takes the collector path. -/
lemma fetchUserSongs_miss (u : String) (now : Int) (cache : Cache)
    (feed : Nat → PageOutcome) (fuel : Nat)
    (h1 : lowerStr (jsTrim u) ≠ "") (hnf : noFresh cache (lowerStr (jsTrim u)) now) :
    fetchUserSongs u now cache feed fuel =
      fetchFresh (lowerStr (jsTrim u)) now cache feed fuel := by
  unfold fetchUserSongs
  rw [if_neg h1]
  cases hcg : cacheGet cache (lowerStr (jsTrim u)) with
  | none => rfl
  | some cv =>
    dsimp only
    rw [if_neg (hnf cv hcg)]

/-! ## Claims about the caching service -/

/-- C10: a username that is empty (or whitespace-only) after trimming makes
`fetchUserSongs` return the empty list immediately and silently: the cache is
unchanged, no page is requested, no progress callback fires, and the result
is a success, for every cache state and network environment. -/
theorem C10_thm (u : String) (now : Int) (cache : Cache) (feed : Nat → PageOutcome)
    (fuel : Nat) (h : jsTrim u = "") :
    fetchUserSongs u now cache feed fuel = some ⟨.ok [], cache, 0, []⟩ := by
  have hkey : lowerStr (jsTrim u) = "" := by rw [h]; rfl
  unfold fetchUserSongs
  rw [if_pos hkey]

/-- Witness for C10 at the whitespace-only username. -/
theorem C10_wit :
    fetchUserSongs "   " 7 [("demo", ⟨[], 0⟩)] (fun _ => .fail) 3 =
      some ⟨.ok [], [("demo", ⟨[], 0⟩)], 0, []⟩ :=
  C10_thm "   " 7 [("demo", ⟨[], 0⟩)] (fun _ => .fail) 3 (by decide)

/-- C9: if the collector's run rejects, `fetchUserSongs` leaves the cache
untouched and returns exactly the user-facing error classification
"Failed to load songs. Please try again."; and since the cache is unchanged,
any later call for the same key (at a time no earlier than the failed one)
performs a fresh collection run rather than serving a cached value. -/
theorem C9_thm (u : String) (t : Int) (cache : Cache) (feed : Nat → PageOutcome)
    (fuel : Nat) (snaps : List (List Song)) (pf : Nat)
    (h1 : lowerStr (jsTrim u) ≠ "")
    (hnf : noFresh cache (lowerStr (jsTrim u)) t)
    (hrun : fetchAllSunoSongs feed fuel = some (.error (snaps, pf))) :
    fetchUserSongs u t cache feed fuel =
      some ⟨.err "Failed to load songs. Please try again.", cache, pf, snaps⟩ ∧
    (∀ (t2 : Int) (feed2 : Nat → PageOutcome) (fuel2 : Nat) (r2 : RunResult),
      t ≤ t2 → fetchAllSunoSongs feed2 fuel2 = some (.ok r2) →
      fetchUserSongs u t2 cache feed2 fuel2 =
        some ⟨.ok r2.corpus, cacheSet cache (lowerStr (jsTrim u)) ⟨r2.corpus, t2⟩,
          r2.pagesFetched, r2.snaps⟩ ∧
      1 ≤ r2.pagesFetched) := by
  constructor
  · rw [fetchUserSongs_miss u t cache feed fuel h1 hnf]
    unfold fetchFresh
    rw [hrun]
  · intro t2 feed2 fuel2 r2 hle hrun2
    constructor
    · rw [fetchUserSongs_miss u t2 cache feed2 fuel2 h1 (noFresh_mono hnf hle)]
      unfold fetchFresh
      rw [hrun2]
    · exact collectLoop_pages_pos feed2 fuel2 0 0 [] [] [] [] 0 r2 (by decide) hrun2

/-- Witness for C9: a feed whose very first page request rejects. -/
theorem C9_wit :
    fetchUserSongs "demo" 0 [] (fun _ => .fail) 5 =
      some ⟨.err "Failed to load songs. Please try again.", [], 1, []⟩ :=
  (C9_thm "demo" 0 [] (fun _ => .fail) 5 [] 1 (by decide)
    (by intro cv hcv; simp [cacheGet] at hcv) (by decide)).1

/-- C4 as stated is falsified when the first call is itself served from a
still-fresh cache record: here the key "demo" is cached at time 0, the first
call at t1 = 299999 hits that record, and the second call 2 ms later (well
within five minutes of the first call) finds the original record expired,
performs a full network collection (12 page requests) and returns a corpus
different from the first call's. -/
theorem C4_cex :
    (lowerStr (jsTrim "Demo") = lowerStr (jsTrim "  demo  ")) ∧
    (fetchUserSongs "Demo" 299999 [("demo", ⟨[mapClipToSong clipB], 0⟩)] feedC1 20 =
      some ⟨.ok [mapClipToSong clipB], [("demo", ⟨[mapClipToSong clipB], 0⟩)], 0, []⟩) ∧
    ((300001 : Int) - 299999 < cacheTimeout) ∧
    (fetchUserSongs "  demo  " 300001 [("demo", ⟨[mapClipToSong clipB], 0⟩)] feedC1 20 =
      some ⟨.ok [mapClipToSong clipA2],
        [("demo", ⟨[mapClipToSong clipA2], 300001⟩)], 12,
        [[mapClipToSong clipA1], [mapClipToSong clipA2]]⟩) ∧
    ¬([mapClipToSong clipA2] = [mapClipToSong clipB]) ∧ ¬((12 : Nat) = 0) := by
  refine ⟨by decide, by decide, by decide, by decide, by decide, by decide⟩

/-- C4 (amended): when the first call's key is non-empty and has no fresh
cache record — so the first call itself performs the collection — and that
collection succeeds, then any second call within the TTL whose username
normalizes to the same key returns the identical corpus, changes nothing,
issues zero page requests regardless of the network environment, and fires
no progress callback, while the pair of calls performs exactly one
collection run (the first call's, which requests at least one page). -/
theorem C4_thm (u1 u2 : String) (t1 t2 : Int) (cache : Cache)
    (feed : Nat → PageOutcome) (fuel : Nat) (r : RunResult)
    (h1 : lowerStr (jsTrim u1) ≠ "")
    (hk : lowerStr (jsTrim u1) = lowerStr (jsTrim u2))
    (hnf : noFresh cache (lowerStr (jsTrim u1)) t1)
    (hrun : fetchAllSunoSongs feed fuel = some (.ok r))
    (httl : t2 - t1 < cacheTimeout) :
    fetchUserSongs u1 t1 cache feed fuel =
      some ⟨.ok r.corpus, cacheSet cache (lowerStr (jsTrim u1)) ⟨r.corpus, t1⟩,
        r.pagesFetched, r.snaps⟩ ∧
    1 ≤ r.pagesFetched ∧
    (∀ (feed2 : Nat → PageOutcome) (fuel2 : Nat),
      fetchUserSongs u2 t2 (cacheSet cache (lowerStr (jsTrim u1)) ⟨r.corpus, t1⟩) feed2 fuel2 =
        some ⟨.ok r.corpus, cacheSet cache (lowerStr (jsTrim u1)) ⟨r.corpus, t1⟩, 0, []⟩) := by
  refine ⟨?_, ?_, ?_⟩
  · rw [fetchUserSongs_miss u1 t1 cache feed fuel h1 hnf]
    unfold fetchFresh
    rw [hrun]
  · exact collectLoop_pages_pos feed fuel 0 0 [] [] [] [] 0 r (by decide) hrun
  · intro feed2 fuel2
    unfold fetchUserSongs
    rw [if_neg (by rw [← hk]; exact h1)]
    rw [← hk, cacheGet_cacheSet_self cache (lowerStr (jsTrim u1)) ⟨r.corpus, t1⟩]
    dsimp only
    rw [if_pos (by simpa using httl)]

/-- Witness for C4 (amended): a cold cache, a successful two-page run,
and a differently-written username for the second call. -/
theorem C4_wit :
    fetchUserSongs "Demo" 100 [] feedC1 20 =
      some ⟨.ok [mapClipToSong clipA2], [("demo", ⟨[mapClipToSong clipA2], 100⟩)], 12,
        [[mapClipToSong clipA1], [mapClipToSong clipA2]]⟩ ∧
    fetchUserSongs "  demo  " 200 [("demo", ⟨[mapClipToSong clipA2], 100⟩)]
        (fun _ => .fail) 0 =
      some ⟨.ok [mapClipToSong clipA2], [("demo", ⟨[mapClipToSong clipA2], 100⟩)], 0, []⟩ := by
  have h := C4_thm "Demo" "  demo  " 100 200 [] feedC1 20
    ⟨[mapClipToSong clipA2], [[mapClipToSong clipA1], [mapClipToSong clipA2]],
      [([clipA1], some [mapClipToSong clipA1]), ([clipA2], some [mapClipToSong clipA2])] ++
        List.replicate 10 ([], none),
      [clipA1, clipA2], 12⟩
    (by decide) (by decide) (by intro cv hcv; simp [cacheGet] at hcv) (by decide) (by decide)
  exact ⟨h.1, h.2.2 (fun _ => .fail) 0⟩

/-! ## Ranking lemmas -/

lemma mem_insertDesc (x a : Song) :
    ∀ l : List Song, a ∈ insertDesc x l ↔ a = x ∨ a ∈ l := by
  intro l
  induction l with
  | nil => simp [insertDesc]
  | cons y ys ih =>
    by_cases hc : y.matchScore ≤ x.matchScore
    · simp [insertDesc, hc]
    · simp only [insertDesc, if_neg hc, List.mem_cons, ih]
      tauto

lemma pairwise_insertDesc (x : Song) :
    ∀ l : List Song, l.Pairwise (fun a b => b.matchScore ≤ a.matchScore) →
      (insertDesc x l).Pairwise (fun a b => b.matchScore ≤ a.matchScore) := by
  intro l
  induction l with
  | nil => intro _; simp [insertDesc]
  | cons y ys ih =>
    intro h
    rw [List.pairwise_cons] at h
    by_cases hc : y.matchScore ≤ x.matchScore
    · rw [insertDesc, if_pos hc, List.pairwise_cons]
      refine ⟨?_, List.pairwise_cons.mpr h⟩
      intro z hz
      rcases List.mem_cons.mp hz with hz | hz
      · rw [hz]; exact hc
      · exact le_trans (h.1 z hz) hc
    · rw [insertDesc, if_neg hc, List.pairwise_cons]
      refine ⟨?_, ih h.2⟩
      intro z hz
      rcases (mem_insertDesc x z ys).mp hz with hz | hz
      · rw [hz]; exact le_of_lt (lt_of_not_le hc)
      · exact h.1 z hz

lemma sortDesc_pairwise :
    ∀ l : List Song, (sortDesc l).Pairwise (fun a b => b.matchScore ≤ a.matchScore) := by
  intro l
  induction l with
  | nil => simp [sortDesc]
  | cons x xs ih => exact pairwise_insertDesc x (sortDesc xs) ih

lemma mem_sortDesc (a : Song) : ∀ l : List Song, a ∈ sortDesc l ↔ a ∈ l := by
  intro l
  induction l with
  | nil => simp [sortDesc]
  | cons x xs ih =>
    rw [sortDesc, mem_insertDesc, ih, List.mem_cons]

lemma filter_insertDesc (q : ℚ) (x : Song) :
    ∀ l : List Song,
      (insertDesc x l).filter (fun s => decide (s.matchScore = q)) =
        if x.matchScore = q then
          x :: l.filter (fun s => decide (s.matchScore = q))
        else l.filter (fun s => decide (s.matchScore = q)) := by
  intro l
  induction l with
  | nil =>
    by_cases hx : x.matchScore = q
    · simp [insertDesc, List.filter, hx]
    · simp [insertDesc, List.filter, hx]
  | cons y ys ih =>
    by_cases hc : y.matchScore ≤ x.matchScore
    · rw [insertDesc, if_pos hc]
      by_cases hx : x.matchScore = q
      · simp [List.filter, hx]
      · simp [List.filter, hx]
    · rw [insertDesc, if_neg hc]
      by_cases hx : x.matchScore = q
      · have hy : ¬(y.matchScore = q) := by
          intro hyq
          exact hc (le_of_eq (hx ▸ hyq))
        rw [if_pos hx] at ih ⊢
        simp [List.filter, hy, ih]
      · rw [if_neg hx] at ih ⊢
        by_cases hy : y.matchScore = q
        · simp [List.filter, hy, ih]
        · simp [List.filter, hy, ih]

lemma filter_sortDesc (q : ℚ) :
    ∀ l : List Song,
      (sortDesc l).filter (fun s => decide (s.matchScore = q)) =
        l.filter (fun s => decide (s.matchScore = q)) := by
  intro l
  induction l with
  | nil => rfl
  | cons x xs ih =>
    rw [sortDesc, filter_insertDesc, ih]
    by_cases hx : x.matchScore = q
    · simp [List.filter, hx]
    · simp [List.filter, hx]

lemma take_isPre {α : Type} (l : List α) (n : Nat) : l.take n <+: l :=
  ⟨l.drop n, List.take_append_drop n l⟩

lemma pre_filter {α : Type} (p : α → Bool) {l₁ l₂ : List α} (h : l₁ <+: l₂) :
    l₁.filter p <+: l₂.filter p := by
  obtain ⟨t, rfl⟩ := h
  exact ⟨t.filter p, (List.filter_append _ _).symm⟩

/-- C5: for every query and corpus, the search result is sorted
non-increasing by score, has at most MAX_SEARCH_RESULTS (= 10) entries, has
no zero-score entry (all scores are strictly positive), and entries of equal
score appear in corpus insertion order: for each score value, the result's
entries with that score form a prefix of the scored corpus's entries with
that score, in corpus order. -/
theorem C5_thm (query : String) (songs : List Song) :
    List.Pairwise (fun a b => b.matchScore ≤ a.matchScore) (searchSongs query songs) ∧
    (searchSongs query songs).length ≤ MAX_SEARCH_RESULTS ∧
    (∀ e ∈ searchSongs query songs, 0 < e.matchScore) ∧
    (∀ q : ℚ, (searchSongs query songs).filter (fun s => decide (s.matchScore = q)) <+:
      ((songs.map (scoreWith query)).filter (fun s => decide (0 < s.matchScore))).filter
        (fun s => decide (s.matchScore = q))) := by
  unfold searchSongs
  by_cases h0 : jsTrim query = "" ∨ songs = []
  · rw [if_pos h0]
    exact ⟨List.Pairwise.nil, by simp, by simp, fun q => ⟨_, rfl⟩⟩
  · rw [if_neg h0]
    dsimp only
    refine ⟨?_, ?_, ?_, ?_⟩
    · exact List.Pairwise.sublist (List.take_sublist _ _) (sortDesc_pairwise _)
    · exact List.length_take_le _ _
    · intro e he
      have h1 : e ∈ sortDesc ((songs.map (scoreWith query)).filter
          (fun s => decide (0 < s.matchScore))) := List.mem_of_mem_take he
      have h2 := (mem_sortDesc e _).mp h1
      have h3 := List.of_mem_filter h2
      exact of_decide_eq_true h3
    · intro q
      have h1 := pre_filter (fun s => decide (s.matchScore = q))
        (take_isPre (sortDesc ((songs.map (scoreWith query)).filter
          (fun s => decide (0 < s.matchScore)))) MAX_SEARCH_RESULTS)
      rw [filter_sortDesc] at h1
      exact h1

/-- Witness for C5 at a concrete query and corpus. -/
theorem C5_wit :
    List.Pairwise (fun a b => b.matchScore ≤ a.matchScore)
      (searchSongs "one" [mapClipToSong clipA1, mapClipToSong clipB]) :=
  (C5_thm "one" [mapClipToSong clipA1, mapClipToSong clipB]).1

/-! ## Rational score arithmetic -/

lemma mkRat_eq_one_iff {m t : Nat} (ht : t ≠ 0) : mkRat (m : Int) t = 1 ↔ m = t := by
  rw [Rat.mkRat_eq_div]
  have ht' : ((t : ℚ)) ≠ 0 := by exact_mod_cast ht
  rw [div_eq_one_iff_eq ht']
  constructor
  · intro h; exact_mod_cast h
  · intro h; exact_mod_cast congrArg (fun n : Nat => ((n : ℚ))) h

lemma mkRat_eq_zero_iff {m t : Nat} (ht : t ≠ 0) : mkRat (m : Int) t = 0 ↔ m = 0 := by
  rw [Rat.mkRat_eq_div]
  have ht' : ((t : ℚ)) ≠ 0 := by exact_mod_cast ht
  rw [div_eq_zero_iff]
  constructor
  · intro h
    rcases h with h | h
    · exact_mod_cast h
    · exact absurd h ht'
  · intro h
    exact Or.inl (by exact_mod_cast h)

lemma mkRat_lt_one {m t : Nat} (h : m < t) : mkRat (m : Int) t < 1 := by
  rw [Rat.mkRat_eq_div]
  have ht' : (0 : ℚ) < (t : ℚ) := by exact_mod_cast Nat.pos_of_ne_zero (by omega)
  rw [div_lt_one ht']
  exact_mod_cast h

lemma mkRat_eq_nine_tenths_iff {m t : Nat} (ht : t ≠ 0) :
    mkRat (m : Int) t = mkRat 9 10 ↔ 10 * m = 9 * t := by
  rw [Rat.mkRat_eq_div, Rat.mkRat_eq_div]
  have ht' : ((t : ℚ)) ≠ 0 := by exact_mod_cast ht
  have h10 : ((10 : ℚ)) ≠ 0 := by norm_num
  push_cast
  rw [div_eq_div_iff ht' h10]
  constructor
  · intro h
    have : ((10 * m : Nat) : ℚ) = ((9 * t : Nat) : ℚ) := by push_cast; push_cast at h; linarith
    exact_mod_cast this
  · intro h
    have : ((10 * m : Nat) : ℚ) = ((9 * t : Nat) : ℚ) := by exact_mod_cast h
    push_cast at this; linarith

lemma nine_tenths_ne_one : mkRat 9 10 ≠ 1 := by decide

lemma nine_tenths_ne_zero : mkRat 9 10 ≠ 0 := by decide

/-! ## Similarity case analysis -/

/-- When neither normalized string is empty, the query has at least one word
and is not a contiguous substring of the lyrics, the score is 9/10 on a full
word match and the matched ratio otherwise — with `matchCount` counting
query tokens with multiplicity. -/
lemma calcSim_cases (str1 str2 : String)
    (h1 : normalize str1 ≠ "") (h2 : normalize str2 ≠ "") (h3 : qWords str2 ≠ [])
    (h4 : includesStr (normalize str1) (normalize str2) = false) :
    calculateSimilarity str1 str2 =
      if matchCount str1 str2 = (qWords str2).length then mkRat 9 10
      else mkRat (matchCount str1 str2) ((qWords str2).length) := by
  have ht : (qWords str2).length ≠ 0 := by
    intro h
    exact h3 (List.length_eq_zero.mp h)
  simp only [matchCount, qWords] at h3 ht ⊢
  unfold calculateSimilarity
  rw [if_neg (by push_neg; exact ⟨h1, h2⟩)]
  dsimp only
  rw [if_neg h3, if_neg (by simp [h4])]
  by_cases hmt :
      ((wordsOf (normalize str2)).filter
        (fun w => (wordsOf (normalize str1)).contains w)).length =
        (wordsOf (normalize str2)).length
  · rw [if_pos ((mkRat_eq_one_iff ht).mpr hmt), if_pos hmt]
  · rw [if_neg (fun hc => hmt ((mkRat_eq_one_iff ht).mp hc)), if_neg hmt]

/-- The guard cases return zero. -/
lemma calcSim_zero_of_guard (str1 str2 : String)
    (h : normalize str1 = "" ∨ normalize str2 = "" ∨ qWords str2 = []) :
    calculateSimilarity str1 str2 = 0 := by
  unfold calculateSimilarity
  rcases h with h | h | h
  · rw [if_pos (Or.inl h)]
  · rw [if_pos (Or.inr h)]
  · by_cases h12 : normalize str1 = "" ∨ normalize str2 = ""
    · rw [if_pos h12]
    · rw [if_neg h12]
      dsimp only
      rw [if_pos (by simpa [qWords] using h)]

/-- A substring hit scores 1 whenever the guards pass. -/
lemma calcSim_of_sub (str1 str2 : String)
    (h1 : normalize str1 ≠ "") (h2 : normalize str2 ≠ "") (h3 : qWords str2 ≠ [])
    (h4 : includesStr (normalize str1) (normalize str2) = true) :
    calculateSimilarity str1 str2 = 1 := by
  simp only [qWords] at h3
  unfold calculateSimilarity
  rw [if_neg (by push_neg; exact ⟨h1, h2⟩)]
  dsimp only
  rw [if_neg h3, if_pos h4]

/-! ## Claims about the similarity scorer -/

/-- C2 as stated is falsified on three fronts: the empty normalized query
is a substring of every string yet scores 0, not 1; a 9-of-10 word match
scores 9/10 without every query word appearing; and a substring hit scores
1 even when no query word is in the lyrics word set, so "0 iff no word
appears" fails. -/
theorem C2_cex :
    (includesStr (normalize "hello") (normalize "!") = true ∧
      calculateSimilarity "hello" "!" = 0) ∧
    (calculateSimilarity "a b c d e f g h i" "a b c d e f g h i j" = mkRat 9 10 ∧
      (qWords "a b c d e f g h i").contains "j" = false) ∧
    (calculateSimilarity "abc" "b" = 1 ∧ (qWords "abc").contains "b" = false) := by
  refine ⟨⟨by decide, by decide⟩, ⟨by decide, by decide⟩, by decide, by decide⟩

/-- C2 (amended): with the source's normalization (trim before symbol
stripping), if either normalized string is empty or the query normalizes to
no words the score is 0; otherwise the score is 1 iff the normalized query
is a contiguous substring of the normalized lyrics, and when it is not a
substring the score is 9/10 iff all query tokens match or exactly 9/10 of
them do, is 0 iff no query token matches, and in the partial case equals
matchedWords/totalQueryWords (`mkRat m t`), with tokens counted with
multiplicity. -/
theorem C2_thm (str1 str2 : String) :
    ((normalize str1 = "" ∨ normalize str2 = "" ∨ qWords str2 = []) →
      calculateSimilarity str1 str2 = 0) ∧
    (normalize str1 ≠ "" → normalize str2 ≠ "" → qWords str2 ≠ [] →
      ((calculateSimilarity str1 str2 = 1 ↔
          includesStr (normalize str1) (normalize str2) = true) ∧
       (includesStr (normalize str1) (normalize str2) = false →
         ((calculateSimilarity str1 str2 = mkRat 9 10 ↔
             (matchCount str1 str2 = (qWords str2).length ∨
              10 * matchCount str1 str2 = 9 * (qWords str2).length)) ∧
          (calculateSimilarity str1 str2 = 0 ↔ matchCount str1 str2 = 0) ∧
          (matchCount str1 str2 ≠ (qWords str2).length →
            calculateSimilarity str1 str2 =
              mkRat (matchCount str1 str2) ((qWords str2).length)))))) := by
  constructor
  · exact calcSim_zero_of_guard str1 str2
  · intro h1 h2 h3
    have ht : (qWords str2).length ≠ 0 := fun h => h3 (List.length_eq_zero.mp h)
    have hm : matchCount str1 str2 ≤ (qWords str2).length := List.length_filter_le _ _
    constructor
    · constructor
      · intro hone
        cases hsub : includesStr (normalize str1) (normalize str2) with
        | true => rfl
        | false =>
          rw [calcSim_cases str1 str2 h1 h2 h3 hsub] at hone
          by_cases hmt : matchCount str1 str2 = (qWords str2).length
          · rw [if_pos hmt] at hone
            exact absurd hone nine_tenths_ne_one
          · rw [if_neg hmt] at hone
            exact absurd hone (ne_of_lt (mkRat_lt_one (lt_of_le_of_ne hm hmt)))
      · intro hsub
        exact calcSim_of_sub str1 str2 h1 h2 h3 hsub
    · intro hsub
      rw [calcSim_cases str1 str2 h1 h2 h3 hsub]
      by_cases hmt : matchCount str1 str2 = (qWords str2).length
      · rw [if_pos hmt]
        refine ⟨⟨fun _ => Or.inl hmt, fun _ => rfl⟩, ?_, ?_⟩
        · constructor
          · intro h; exact absurd h nine_tenths_ne_zero
          · intro h
            rw [h] at hmt
            exact absurd hmt.symm ht
        · intro h; exact absurd hmt h
      · rw [if_neg hmt]
        refine ⟨?_, ?_, fun _ => rfl⟩
        · constructor
          · intro h
            exact Or.inr ((mkRat_eq_nine_tenths_iff ht).mp h)
          · intro h
            rcases h with h | h
            · exact absurd h hmt
            · exact (mkRat_eq_nine_tenths_iff ht).mpr h
        · exact mkRat_eq_zero_iff ht

/-- Witness for C2 at the spec's out-of-order example: all query words match
but not contiguously, so the score is the discounted 9/10. -/
theorem C2_wit :
    calculateSimilarity "hello beautiful world" "world hello" = mkRat 9 10 :=
  (((C2_thm "hello beautiful world" "world hello").2 (by decide) (by decide)
    (by decide)).2 (by decide)).1.mpr (Or.inl (by decide))

/-- C6 as stated is falsified: duplicate query words are counted per
occurrence, so "a a c" against lyrics "a b" scores 2/3, while the
deduplicated query "a c" scores 1/2. -/
theorem C6_cex :
    calculateSimilarity "a b" "a a c" = mkRat 2 3 ∧
    calculateSimilarity "a b" "a c" = mkRat 1 2 ∧
    ¬(calculateSimilarity "a b" "a a c" = calculateSimilarity "a b" "a c") := by
  refine ⟨by decide, by decide, by decide⟩

/-- C6 (amended): each occurrence of a duplicated query word counts
separately, against the lyrics word set: outside the guard and substring
cases the score is determined by the number of query tokens (with
multiplicity) found in the lyrics word set over the total token count — so
removing repeated words from the query can change the score. -/
theorem C6_thm (str1 str2 : String)
    (h1 : normalize str1 ≠ "") (h2 : normalize str2 ≠ "") (h3 : qWords str2 ≠ [])
    (h4 : includesStr (normalize str1) (normalize str2) = false) :
    calculateSimilarity str1 str2 =
      if ((qWords str2).filter (fun w => (qWords str1).contains w)).length =
          (qWords str2).length
      then mkRat 9 10
      else mkRat (((qWords str2).filter (fun w => (qWords str1).contains w)).length)
        ((qWords str2).length) :=
  calcSim_cases str1 str2 h1 h2 h3 h4

/-- Witness for C6 at the duplicated-query counterexample input. -/
theorem C6_wit :
    calculateSimilarity "a b" "a a c" =
      if ((qWords "a a c").filter (fun w => (qWords "a b").contains w)).length =
          (qWords "a a c").length
      then mkRat 9 10
      else mkRat (((qWords "a a c").filter (fun w => (qWords "a b").contains w)).length)
        ((qWords "a a c").length) :=
  C6_thm "a b" "a a c" (by decide) (by decide) (by decide) (by decide)

/-! ## Dedup-map key lemmas -/

lemma any_id_iff_mem (m : List Song) (k : String) :
    m.any (fun s => s.id = k) = true ↔ k ∈ m.map (fun s => s.id) := by
  simp [List.any_eq_true]

lemma ids_mapSet (m : List Song) (v : Song) :
    (mapSet m v).map (fun s => s.id) =
      if v.id ∈ m.map (fun s => s.id) then m.map (fun s => s.id)
      else m.map (fun s => s.id) ++ [v.id] := by
  unfold mapSet
  by_cases h : m.any (fun s => s.id = v.id) = true
  · rw [if_pos h, if_pos ((any_id_iff_mem m v.id).mp h)]
    rw [List.map_map]
    apply List.map_congr_left
    intro s _
    by_cases hs : s.id = v.id
    · simp [Function.comp, hs]
    · simp [Function.comp, hs]
  · have h' : ¬(v.id ∈ m.map (fun s => s.id)) := fun hm => h ((any_id_iff_mem m v.id).mpr hm)
    rw [if_neg h, if_neg h', List.map_append]
    rfl

lemma ids_mapSet_pre (m : List Song) (v : Song) :
    m.map (fun s => s.id) <+: (mapSet m v).map (fun s => s.id) := by
  rw [ids_mapSet]
  by_cases h : v.id ∈ m.map (fun s => s.id)
  · rw [if_pos h]
  · rw [if_neg h]
    exact ⟨[v.id], rfl⟩

lemma ids_mapSet_nodup (m : List Song) (v : Song)
    (h : (m.map (fun s => s.id)).Nodup) : ((mapSet m v).map (fun s => s.id)).Nodup := by
  rw [ids_mapSet]
  by_cases hm : v.id ∈ m.map (fun s => s.id)
  · rw [if_pos hm]; exact h
  · rw [if_neg hm]
    refine List.Nodup.append h (List.nodup_singleton _) ?_
    intro x hx hx1
    rw [List.mem_singleton] at hx1
    exact hm (hx1 ▸ hx)

lemma ids_foldClips (cs : List SunoClip) :
    ∀ m : List Song,
      (foldClips m cs).map (fun s => s.id) =
        (cs.map (fun c => c.id)).foldl seenIns (m.map (fun s => s.id)) := by
  induction cs with
  | nil => intro m; rfl
  | cons c cs ih =>
    intro m
    show (foldClips (mapSet m (mapClipToSong c)) cs).map (fun s => s.id) = _
    rw [List.map_cons, List.foldl_cons, ih (mapSet m (mapClipToSong c))]
    congr 1
    rw [ids_mapSet]
    rfl

lemma ids_foldClips_pre (cs : List SunoClip) :
    ∀ m : List Song, m.map (fun s => s.id) <+: (foldClips m cs).map (fun s => s.id) := by
  induction cs with
  | nil => intro m; exact ⟨[], List.append_nil _⟩
  | cons c cs ih =>
    intro m
    exact List.IsPrefix.trans (ids_mapSet_pre m (mapClipToSong c))
      (ih (mapSet m (mapClipToSong c)))

lemma ids_foldClips_nodup (cs : List SunoClip) :
    ∀ m : List Song, (m.map (fun s => s.id)).Nodup →
      ((foldClips m cs).map (fun s => s.id)).Nodup := by
  induction cs with
  | nil => intro m h; exact h
  | cons c cs ih =>
    intro m h
    exact ih (mapSet m (mapClipToSong c)) (ids_mapSet_nodup m (mapClipToSong c) h)

/-! ## Dedup-map lookup lemmas -/

lemma find?_none_of_any_false_g {α : Type} (p : α → Bool) :
    ∀ l : List α, l.any p = false → l.find? p = none := by
  intro l
  induction l with
  | nil => intro _; rfl
  | cons a l ih =>
    intro h
    simp only [List.any_cons, Bool.or_eq_false_iff] at h
    simp [List.find?, h.1, ih h.2]

lemma find?_append_some {α : Type} (p : α → Bool) {a : α} :
    ∀ l₁ l₂ : List α, l₁.find? p = some a → (l₁ ++ l₂).find? p = some a := by
  intro l₁ l₂
  induction l₁ with
  | nil => intro h; cases h
  | cons x l ih =>
    intro h
    simp only [List.find?] at h ⊢
    cases hp : p x
    · rw [hp] at h
      simp only [List.cons_append, List.find?, hp]
      exact ih h
    · rw [hp] at h
      simpa [List.find?, hp] using h

lemma find?_replace_ne (k : String) (v : Song) :
    ∀ m : List Song, v.id ≠ k →
      (m.map (fun s => if s.id = v.id then v else s)).find? (fun s => decide (s.id = k)) =
        m.find? (fun s => decide (s.id = k)) := by
  intro m hvk
  induction m with
  | nil => rfl
  | cons s m ih =>
    by_cases hs : s.id = v.id
    · have h1 : (decide (v.id = k)) = false := by simpa using hvk
      have h2 : (decide (s.id = k)) = false := by simpa using (hs ▸ hvk : ¬(s.id = k))
      simp only [List.map_cons, if_pos hs, List.find?, h1, h2]
      exact ih
    · simp only [List.map_cons, if_neg hs, List.find?]
      cases hp : decide (s.id = k)
      · exact ih
      · rfl

lemma find?_replace_self (k : String) (v : Song) :
    ∀ m : List Song, v.id = k → m.any (fun s => s.id = v.id) = true →
      (m.map (fun s => if s.id = v.id then v else s)).find? (fun s => decide (s.id = k)) =
        some v := by
  intro m hvk
  induction m with
  | nil => intro h; simp at h
  | cons s m ih =>
    intro h
    by_cases hs : s.id = v.id
    · have h1 : (decide (v.id = k)) = true := by simpa using hvk
      simp [List.find?, if_pos hs, h1]
    · have h2 : (decide (s.id = k)) = false := by
        simpa using (fun hc => hs (hvk ▸ hc : s.id = v.id))
      have h3 : m.any (fun s => s.id = v.id) = true := by
        simp only [List.any_cons] at h
        rcases Bool.or_eq_true_iff.mp h with hh | hh
        · exact absurd (of_decide_eq_true hh) hs
        · exact hh
      simp only [List.map_cons, if_neg hs, List.find?, h2]
      exact ih h3

lemma find?_mapSet (m : List Song) (v : Song) (k : String) :
    (mapSet m v).find? (fun s => decide (s.id = k)) =
      if v.id = k then some v else m.find? (fun s => decide (s.id = k)) := by
  unfold mapSet
  by_cases ha : m.any (fun s => s.id = v.id) = true
  · rw [if_pos ha]
    by_cases hv : v.id = k
    · rw [if_pos hv, find?_replace_self k v m hv ha]
    · rw [if_neg hv, find?_replace_ne k v m hv]
  · rw [if_neg ha]
    have ha' : m.any (fun s => s.id = v.id) = false := by
      cases hb : m.any (fun s => s.id = v.id)
      · rfl
      · exact absurd hb ha
    by_cases hv : v.id = k
    · rw [if_pos hv]
      have hnone : m.find? (fun s => decide (s.id = k)) = none := by
        apply find?_none_of_any_false_g
        rw [← hv]
        simpa using ha'
      rw [find?_append_of_none m [v] hnone]
      simp [List.find?, hv]
    · rw [if_neg hv]
      cases hf : m.find? (fun s => decide (s.id = k)) with
      | some s => exact find?_append_some _ m [v] hf
      | none =>
        rw [find?_append_of_none m [v] hf]
        simp [List.find?, hv]

lemma find?_foldClips (k : String) (cs : List SunoClip) :
    ∀ m : List Song,
      (foldClips m cs).find? (fun s => decide (s.id = k)) =
        match (cs.filter (fun c => decide (c.id = k))).getLast? with
        | some c => some (mapClipToSong c)
        | none => m.find? (fun s => decide (s.id = k)) := by
  induction cs using List.reverseRecOn with
  | nil => intro m; rfl
  | append_singleton cs c ih =>
    intro m
    have hfold : foldClips m (cs ++ [c]) = mapSet (foldClips m cs) (mapClipToSong c) := by
      unfold foldClips
      rw [List.foldl_append]
      rfl
    rw [hfold, find?_mapSet, List.filter_append]
    by_cases hc : c.id = k
    · have : ([c].filter (fun c => decide (c.id = k))) = [c] := by simp [List.filter, hc]
      rw [this, List.getLast?_concat]
      rw [if_pos (show (mapClipToSong c).id = k from hc)]
    · have : ([c].filter (fun c => decide (c.id = k))) = [] := by simp [List.filter, hc]
      rw [this, List.append_nil]
      rw [if_neg (show ¬((mapClipToSong c).id = k) from hc)]
      exact ih m

/-! ## Final state of a completed run -/

lemma foldClips_append (m : List Song) (cs₁ cs₂ : List SunoClip) :
    foldClips m (cs₁ ++ cs₂) = foldClips (foldClips m cs₁) cs₂ := by
  unfold foldClips
  rw [List.foldl_append]

/-- A completed run's corpus is the starting map with the run's processed
candidates merged in, and its processed stream extends the starting one. -/
lemma collect_final_state (feed : Nat → PageOutcome) :
    ∀ fuel page ep (m : List Song) snaps ev procd pf r,
      collectLoop feed fuel page ep m snaps ev procd pf = some (.ok r) →
      ∃ tail : List SunoClip, r.processed = procd ++ tail ∧ r.corpus = foldClips m tail := by
  intro fuel
  induction fuel with
  | zero => intro page ep m snaps ev procd pf r h; exact absurd h (by simp [collectLoop])
  | succ fuel ih =>
    intro page ep m snaps ev procd pf r h
    simp only [collectLoop] at h
    split at h
    · have hr : RunResult.mk m snaps ev procd pf = r := by simpa using h
      refine ⟨[], ?_, ?_⟩
      · rw [← hr]; simp
      · rw [← hr]; rfl
    · split at h
      · simp at h
      · exact ih _ _ _ _ _ _ _ _ h
      · split at h
        · exact ih _ _ _ _ _ _ _ _ h
        · rename_i x clips heq hne
          obtain ⟨tail, hp, hc⟩ := ih _ _ _ _ _ _ _ _ h
          refine ⟨clips.filter (fun c => decide (c.id ≠ "")) ++ tail, ?_, ?_⟩
          · rw [hp, List.append_assoc]
          · rw [hc, foldClips_append]

/-! ## Claims about the collector's dedup map -/

/-- C1 as stated is falsified: a later candidate whose identifier is already
present is not skipped — `Map.set` overwrites the stored entry's data in
place.  Feeding id "a" with title "first" then id "a" with title "second"
yields a corpus whose single entry carries the second delivery's data. -/
theorem C1_cex :
    corpusOf (fetchAllSunoSongs feedC1 20) = some [mapClipToSong clipA2] ∧
    ¬(mapClipToSong clipA2 = mapClipToSong clipA1) := by
  refine ⟨by decide, by decide⟩

/-- C1 (amended): for every completed run, the final corpus holds each
identifier exactly once, in first-seen order (the identifier list is the
first-seen dedup of the processed candidate stream), but the data retained
for an identifier is that of the LAST-seen candidate bearing it — a later
duplicate overwrites the stored entry in place instead of being skipped. -/
theorem C1_thm (feed : Nat → PageOutcome) (fuel : Nat) (r : RunResult)
    (h : fetchAllSunoSongs feed fuel = some (.ok r)) :
    (r.corpus.map (fun s => s.id)).Nodup ∧
    r.corpus.map (fun s => s.id) = dedupFirst (r.processed.map (fun c => c.id)) ∧
    (∀ k, r.corpus.find? (fun s => decide (s.id = k)) =
      ((r.processed.filter (fun c => decide (c.id = k))).getLast?).map mapClipToSong) := by
  obtain ⟨tail, hp, hc⟩ := collect_final_state feed fuel 0 0 [] [] [] [] 0 r h
  rw [List.nil_append] at hp
  refine ⟨?_, ?_, ?_⟩
  · rw [hc]
    exact ids_foldClips_nodup tail [] (by simp)
  · rw [hc, hp, ids_foldClips]
    rfl
  · intro k
    rw [hc, hp, find?_foldClips k tail []]
    cases (tail.filter (fun c => decide (c.id = k))).getLast? with
    | none => rfl
    | some c => rfl

/-- Witness for C1 (amended) on the duplicate-id feed. -/
theorem C1_wit :
    (([mapClipToSong clipA2]).map (fun s => s.id)).Nodup ∧
    (([mapClipToSong clipA2]).find? (fun s => decide (s.id = "a")) =
      ((([clipA1, clipA2]).filter (fun c => decide (c.id = "a"))).getLast?).map
        mapClipToSong) := by
  have h := C1_thm feedC1 20
    ⟨[mapClipToSong clipA2], [[mapClipToSong clipA1], [mapClipToSong clipA2]],
      [([clipA1], some [mapClipToSong clipA1]), ([clipA2], some [mapClipToSong clipA2])] ++
        List.replicate 10 ([], none),
      [clipA1, clipA2], 12⟩ (by decide)
  exact ⟨h.1, h.2.2 "a"⟩

/-! ## Snapshot invariants (C8) -/

lemma collect_inv_C8 (feed : Nat → PageOutcome) :
    ∀ fuel page ep (m : List Song) snaps ev procd pf r,
      (m.map (fun s => s.id)).Nodup →
      (∀ s ∈ snaps, (s.map (fun x : Song => x.id)).Nodup) →
      List.Chain' (fun s t => s.map (fun x : Song => x.id) <+: t.map (fun x : Song => x.id))
        (snaps ++ [m]) →
      collectLoop feed fuel page ep m snaps ev procd pf = some (.ok r) →
      ((r.corpus.map (fun s => s.id)).Nodup ∧
       (∀ s ∈ r.snaps, (s.map (fun x : Song => x.id)).Nodup) ∧
       List.Chain' (fun s t => s.map (fun x : Song => x.id) <+: t.map (fun x : Song => x.id))
         (r.snaps ++ [r.corpus])) := by
  intro fuel
  induction fuel with
  | zero =>
    intro page ep m snaps ev procd pf r _ _ _ h
    exact absurd h (by simp [collectLoop])
  | succ fuel ih =>
    intro page ep m snaps ev procd pf r h1 h2 h3 h
    simp only [collectLoop] at h
    split at h
    · have hr : RunResult.mk m snaps ev procd pf = r := by simpa using h
      rw [← hr]
      exact ⟨h1, h2, h3⟩
    · split at h
      · simp at h
      · exact ih _ _ _ _ _ _ _ _ h1 h2 h3 h
      · split at h
        · exact ih _ _ _ _ _ _ _ _ h1 h2 h3 h
        · rename_i x clips heq hne
          set fc := clips.filter (fun c => decide (c.id ≠ "")) with hfc
          have hnodup' : ((foldClips m fc).map (fun s => s.id)).Nodup :=
            ids_foldClips_nodup fc m h1
          have hpre : m.map (fun s => s.id) <+: (foldClips m fc).map (fun s => s.id) :=
            ids_foldClips_pre fc m
          have hparts := (List.chain'_append).mp h3
          refine ih _ _ _ _ _ _ _ _ hnodup' ?_ ?_ h
          · intro s hs
            rcases List.mem_append.mp hs with hs | hs
            · exact h2 s hs
            · rw [List.mem_singleton] at hs
              rw [hs]
              exact hnodup'
          · rw [List.append_assoc]
            apply (List.chain'_append).mpr
            refine ⟨hparts.1, ?_, ?_⟩
            · exact List.chain'_pair.mpr ⟨[], List.append_nil _⟩
            · intro a ha b hb
              simp only [List.singleton_append, List.head?, Option.mem_def,
                Option.some.injEq] at hb
              subst hb
              exact List.IsPrefix.trans (hparts.2.2 a ha m (by simp)) hpre

/-- C8: in every completed run, every snapshot and the final corpus hold
pairwise-distinct identifiers, and along the sequence of snapshots (ending
in the final corpus) each snapshot's identifier list is a prefix of the
next one's — the identifier set only grows, in stable first-seen order. -/
theorem C8_thm (feed : Nat → PageOutcome) (fuel : Nat) (r : RunResult)
    (h : fetchAllSunoSongs feed fuel = some (.ok r)) :
    ((r.corpus.map (fun s => s.id)).Nodup ∧
     (∀ s ∈ r.snaps, (s.map (fun x : Song => x.id)).Nodup) ∧
     List.Chain' (fun s t => s.map (fun x : Song => x.id) <+: t.map (fun x : Song => x.id))
       (r.snaps ++ [r.corpus])) :=
  collect_inv_C8 feed fuel 0 0 [] [] [] [] 0 r (by simp) (by simp)
    (List.chain'_singleton _) h

/-- Witness for C8 on the duplicate-id feed. -/
theorem C8_wit :
    List.Chain' (fun s t => s.map (fun x : Song => x.id) <+: t.map (fun x : Song => x.id))
      ([[mapClipToSong clipA1], [mapClipToSong clipA2]] ++ [[mapClipToSong clipA2]]) := by
  have h := C8_thm feedC1 20
    ⟨[mapClipToSong clipA2], [[mapClipToSong clipA1], [mapClipToSong clipA2]],
      [([clipA1], some [mapClipToSong clipA1]), ([clipA2], some [mapClipToSong clipA2])] ++
        List.replicate 10 ([], none),
      [clipA1, clipA2], 12⟩ (by decide)
  exact h.2.2

/-! ## Snapshot trigger trace (C7) -/

/-- The materialized corpus after merging the candidate lists of a page
trace, in order — the state of the dedup map after those pages. -/
def mergeAllEv (ev : List (List SunoClip × Option (List Song))) : List Song :=
  ev.foldl (fun acc e => foldClips acc (e.1.filter (fun c => decide (c.id ≠ "")))) []

lemma mergeAllEv_concat (ev : List (List SunoClip × Option (List Song)))
    (e : List SunoClip × Option (List Song)) :
    mergeAllEv (ev ++ [e]) = foldClips (mergeAllEv ev) (e.1.filter (fun c => decide (c.id ≠ ""))) := by
  unfold mergeAllEv
  rw [List.foldl_append]
  rfl

lemma collect_inv_C7 (feed : Nat → PageOutcome) :
    ∀ fuel page ep (m : List Song) snaps ev procd pf r,
      (∀ e ∈ ev, e.2.isSome = true ↔ e.1 ≠ []) →
      snaps = ev.filterMap (fun e => e.2) →
      m = mergeAllEv ev →
      (∀ n e, ev[n]? = some e → ∀ s, e.2 = some s → s = mergeAllEv (ev.take (n+1))) →
      collectLoop feed fuel page ep m snaps ev procd pf = some (.ok r) →
      ((∀ e ∈ r.events, e.2.isSome = true ↔ e.1 ≠ []) ∧
       r.snaps = r.events.filterMap (fun e => e.2) ∧
       r.corpus = mergeAllEv r.events ∧
       (∀ n e, r.events[n]? = some e → ∀ s, e.2 = some s →
         s = mergeAllEv (r.events.take (n+1)))) := by
  intro fuel
  induction fuel with
  | zero =>
    intro page ep m snaps ev procd pf r _ _ _ _ h
    exact absurd h (by simp [collectLoop])
  | succ fuel ih =>
    intro page ep m snaps ev procd pf r h1 h2 h3 h4 h
    simp only [collectLoop] at h
    split at h
    · have hr : RunResult.mk m snaps ev procd pf = r := by simpa using h
      rw [← hr]
      exact ⟨h1, h2, h3, h4⟩
    · split at h
      · simp at h
      · refine ih _ _ _ _ _ _ _ _ ?_ ?_ ?_ ?_ h
        · intro e he
          rcases List.mem_append.mp he with he | he
          · exact h1 e he
          · rw [List.mem_singleton] at he
            rw [he]
            simp
        · rw [List.filterMap_append, h2]
          simp
        · rw [mergeAllEv_concat, ← h3]
          rfl
        · intro n e hn s hs
          rcases Nat.lt_trichotomy n ev.length with hlt | heq | hgt
          · rw [List.getElem?_append_left hlt] at hn
            rw [List.take_append_of_le_length (by omega)]
            exact h4 n e hn s hs
          · rw [heq, List.getElem?_concat_length] at hn
            rw [Option.some.injEq] at hn
            rw [← hn] at hs
            cases hs
          · rw [List.getElem?_eq_none (by simp; omega)] at hn
            cases hn
      · split at h
        · refine ih _ _ _ _ _ _ _ _ ?_ ?_ ?_ ?_ h
          · intro e he
            rcases List.mem_append.mp he with he | he
            · exact h1 e he
            · rw [List.mem_singleton] at he
              rw [he]
              simp
          · rw [List.filterMap_append, h2]
            simp
          · rw [mergeAllEv_concat, ← h3]
            rfl
          · intro n e hn s hs
            rcases Nat.lt_trichotomy n ev.length with hlt | heq | hgt
            · rw [List.getElem?_append_left hlt] at hn
              rw [List.take_append_of_le_length (by omega)]
              exact h4 n e hn s hs
            · rw [heq, List.getElem?_concat_length] at hn
              rw [Option.some.injEq] at hn
              rw [← hn] at hs
              cases hs
            · rw [List.getElem?_eq_none (by simp; omega)] at hn
              cases hn
        · rename_i x clips heq hne
          refine ih _ _ _ _ _ _ _ _ ?_ ?_ ?_ ?_ h
          · intro e he
            rcases List.mem_append.mp he with he | he
            · exact h1 e he
            · rw [List.mem_singleton] at he
              rw [he]
              simpa using hne
          · rw [List.filterMap_append, h2]
            simp
          · rw [mergeAllEv_concat, ← h3]
          · intro n e hn s hs
            rcases Nat.lt_trichotomy n ev.length with hlt | hl | hgt
            · rw [List.getElem?_append_left hlt] at hn
              rw [List.take_append_of_le_length (by omega)]
              exact h4 n e hn s hs
            · rw [hl, List.getElem?_concat_length] at hn
              rw [Option.some.injEq] at hn
              rw [← hn] at hs
              rw [Option.some.injEq] at hs
              rw [← hs, hl]
              rw [List.take_of_length_le (by simp)]
              rw [mergeAllEv_concat, ← h3]
            · rw [List.getElem?_eq_none (by simp; omega)] at hn
              cases hn

/-- C7 as stated is falsified: `onProgress` fires after every non-empty
page, even one adding no new entry.  A feed whose second page re-delivers
only the already-seen id "a" still produces two snapshots. -/
theorem C7_cex :
    snapsOf (fetchAllSunoSongs feedC7 20) =
      some [[mapClipToSong clipA1], [mapClipToSong clipA1]] ∧
    corpusOf (fetchAllSunoSongs feedC7 20) = some [mapClipToSong clipA1] := by
  refine ⟨by decide, by decide⟩

/-- C7 (amended): within a completed run, `onSnapshot` is invoked for a page
iff that page's candidate list is non-empty — regardless of whether any new
entry was added — and each invocation receives the materialized corpus (the
dedup map's values in insertion order) after merging that page. -/
theorem C7_thm (feed : Nat → PageOutcome) (fuel : Nat) (r : RunResult)
    (h : fetchAllSunoSongs feed fuel = some (.ok r)) :
    ((∀ e ∈ r.events, e.2.isSome = true ↔ e.1 ≠ []) ∧
     r.snaps = r.events.filterMap (fun e => e.2) ∧
     r.corpus = mergeAllEv r.events ∧
     (∀ n e, r.events[n]? = some e → ∀ s, e.2 = some s →
       s = mergeAllEv (r.events.take (n+1)))) :=
  collect_inv_C7 feed fuel 0 0 [] [] [] [] 0 r (by simp) rfl rfl
    (by intro n e hn; simp at hn) h

/-- Witness for C7 (amended) on the duplicate-id feed: the second event's
snapshot equals the corpus merged from the first two pages. -/
theorem C7_wit :
    [[mapClipToSong clipA1], [mapClipToSong clipA1]] =
      (([([clipA1], some [mapClipToSong clipA1]), ([clipA1], some [mapClipToSong clipA1])] ++
        List.replicate 10 ([], none)).filterMap
          (fun e : List SunoClip × Option (List Song) => e.2)) := by
  have h := C7_thm feedC7 20
    ⟨[mapClipToSong clipA1], [[mapClipToSong clipA1], [mapClipToSong clipA1]],
      [([clipA1], some [mapClipToSong clipA1]), ([clipA1], some [mapClipToSong clipA1])] ++
        List.replicate 10 ([], none),
      [clipA1, clipA1], 12⟩ (by decide)
  exact h.2.1

/-! ## Empty-page runs and termination (C3) -/

/-- A page yields no usable data: null/shapeless response or an empty
candidate list. -/
def emptyOutcome (o : PageOutcome) : Prop := o = .resp none ∨ o = .resp (some [])

/-- Consuming a run of `N ≤ 10 - ep` empty pages just advances the page
cursor, the empty counter, the trace and the request count. -/
lemma collect_skip_empties (feed : Nat → PageOutcome) :
    ∀ (N fuel page ep : Nat) (m : List Song) snaps ev procd pf,
      ep + N ≤ 10 →
      (∀ q, page ≤ q → q < page + N → emptyOutcome (feed q)) →
      collectLoop feed (N + fuel) page ep m snaps ev procd pf =
        collectLoop feed fuel (page + N) (ep + N) m snaps
          (ev ++ List.replicate N ([], none)) procd (pf + N) := by
  intro N
  induction N with
  | zero =>
    intro fuel page ep m snaps ev procd pf _ _
    simp
  | succ N ihN =>
    intro fuel page ep m snaps ev procd pf hle hemp
    have hep : ¬(MAX_CONSECUTIVE_EMPTY_PAGES ≤ ep) := by
      simp only [MAX_CONSECUTIVE_EMPTY_PAGES]
      omega
    have hfirst : emptyOutcome (feed page) := hemp page (Nat.le_refl _) (by omega)
    have hsh : N + 1 + fuel = (N + fuel) + 1 := by omega
    rw [hsh]
    simp only [collectLoop]
    rw [if_neg hep]
    have hrest :
        collectLoop feed (N + fuel) (page + 1) (ep + 1) m snaps
            (ev ++ [([], none)]) procd (pf + 1) =
          collectLoop feed fuel (page + N + 1) (ep + N + 1) m snaps
            (ev ++ List.replicate (N + 1) ([], none)) procd (pf + N + 1) := by
      have e1 : page + 1 + N = page + N + 1 := by omega
      have e2 : ep + 1 + N = ep + N + 1 := by omega
      have e3 : pf + 1 + N = pf + N + 1 := by omega
      have e4 : (ev ++ [(([] : List SunoClip), (none : Option (List Song)))]) ++
          List.replicate N ([], none) = ev ++ List.replicate (N + 1) ([], none) := by
        rw [List.append_assoc]
        congr 1
      rw [ihN fuel (page + 1) (ep + 1) m snaps (ev ++ [([], none)]) procd (pf + 1)
        (by omega) (fun q hq1 hq2 => hemp q (by omega) (by omega)), e1, e2, e3, e4]
    rcases hfirst with hf | hf
    · rw [hf]
      exact hrest
    · rw [hf]
      dsimp only
      rw [if_pos rfl]
      exact hrest

/-- Once ten consecutive empty pages arrive with a reset counter, the run
returns the corpus accumulated so far, after exactly ten more requests. -/
lemma collect_halt (feed : Nat → PageOutcome) (fuel page : Nat) (m : List Song)
    (snaps : List (List Song)) (ev : List (List SunoClip × Option (List Song)))
    (procd : List SunoClip) (pf : Nat)
    (hemp : ∀ q, page ≤ q → q < page + 10 → emptyOutcome (feed q)) :
    collectLoop feed (10 + (fuel + 1)) page 0 m snaps ev procd pf =
      some (.ok ⟨m, snaps, ev ++ List.replicate 10 ([], none), procd, pf + 10⟩) := by
  rw [collect_skip_empties feed 10 (fuel + 1) page 0 m snaps ev procd pf (by omega) hemp]
  simp only [collectLoop]
  rw [if_pos (by simp [MAX_CONSECUTIVE_EMPTY_PAGES])]

/-- C3: (a) from a reset empty counter, ten consecutive empty pages
terminate the run permanently, returning exactly the corpus accumulated so
far after exactly ten more page requests; (b) a run of `N < 10` empty pages
merely advances the cursor and counter, so collection resumes on later data;
(c) the spec's concrete scenario — pages `[a, b]`, nine empties, then `[a]`
again — completes with final corpus `[a, b]`. -/
theorem C3_thm :
    (∀ (feed : Nat → PageOutcome) (fuel page : Nat) (m : List Song) snaps ev procd pf,
      11 ≤ fuel →
      (∀ q, page ≤ q → q < page + 10 → emptyOutcome (feed q)) →
      collectLoop feed fuel page 0 m snaps ev procd pf =
        some (.ok ⟨m, snaps, ev ++ List.replicate 10 ([], none), procd, pf + 10⟩)) ∧
    (∀ (feed : Nat → PageOutcome) (N fuel page : Nat) (m : List Song) snaps ev procd pf,
      N < 10 →
      (∀ q, page ≤ q → q < page + N → emptyOutcome (feed q)) →
      collectLoop feed (N + fuel) page 0 m snaps ev procd pf =
        collectLoop feed fuel (page + N) N m snaps
          (ev ++ List.replicate N ([], none)) procd (pf + N)) ∧
    corpusOf (fetchAllSunoSongs feedC3 30) =
      some [mapClipToSong clipA1, mapClipToSong clipB] := by
  refine ⟨?_, ?_, by decide⟩
  · intro feed fuel page m snaps ev procd pf hfuel hemp
    obtain ⟨k, rfl⟩ : ∃ k, fuel = 10 + (k + 1) := ⟨fuel - 11, by omega⟩
    exact collect_halt feed k page m snaps ev procd pf hemp
  · intro feed N fuel page m snaps ev procd pf hN hemp
    have h := collect_skip_empties feed N fuel page 0 m snaps ev procd pf (by omega) hemp
    simpa using h

/-- The always-empty feed. -/
def feedE : Nat → PageOutcome := fun _ => .resp none

/-- Witness for C3: ten empty pages from a cold start return the empty
corpus after exactly ten requests, and a shorter run of three empties merely
advances the loop state. -/
theorem C3_wit :
    collectLoop feedE 11 0 0 [] [] [] [] 0 =
      some (.ok ⟨[], [], List.replicate 10 ([], none), [], 10⟩) ∧
    collectLoop feedE (3 + 1) 5 0 [] [] [] [] 7 =
      collectLoop feedE 1 (5 + 3) 3 [] [] (([] : List (List SunoClip × Option (List Song))) ++
        List.replicate 3 ([], none)) [] (7 + 3) := by
  constructor
  · have h := C3_thm.1 feedE 11 0 [] [] [] [] 0 (by omega)
      (fun q _ _ => Or.inl rfl)
    simpa using h
  · exact C3_thm.2.1 feedE 3 1 5 [] [] [] [] 7 (by omega) (fun q _ _ => Or.inl rfl)

end Shazuno
